import Mathlib

/-!
Verification of the SeguRAS domain core (src/main.py).

The relationship/state-machine core of the application is shallowly embedded
here: every definition below is a direct translation of a function of
`src/main.py` (the tkinter rendering calls — canvas item configuration,
message boxes, menus, coordinates of shapes — are presentation effects and
are either dropped or recorded as explicit effect values; the domain state
they do not touch is carried explicitly).  Python sets become `Finset`,
Python dicts with `setdefault` become total functions with the default value,
Python object attributes become structure fields, and attribute maps over
object identities become functions out of an identifier type.
-/

/-! ## NameAllocator (src/main.py lines 9-31) -/

namespace Alloc

/-- One per-type pool of `NameAllocator.pools`: `{"next": n, "free": set()}`. -/
structure Pool where
  next : Nat
  free : Finset Nat
deriving DecidableEq

/-- `NameAllocator.pools`, as a total map from type name to pool; a key that was
never touched holds the `setdefault` default `{"next": 1, "free": set()}`. -/
def Pools := String → Pool

/-- The initial (empty) pools dictionary. -/
def initPools : Pools := fun _ => ⟨1, ∅⟩

/-- `NameAllocator.next_name`: take the minimum of the free set if nonempty,
else the `next` counter (incrementing it); return `f"{type_name}{n}"`. -/
def next_name (pools : Pools) (t : String) : String × Pools :=
  let p := pools t
  if h : p.free.Nonempty then
    let n := p.free.min' h
    (t ++ toString n, Function.update pools t ⟨p.next, p.free.erase n⟩)
  else
    (t ++ toString p.next, Function.update pools t ⟨p.next + 1, p.free⟩)

/-- The regex `re.fullmatch(rf"{re.escape(type_name)}(\d+)", name)` of
`release_name`, returning the integer suffix `int(m.group(1))`: `name` must be
exactly the (escaped, hence literal) type name followed by one or more digits,
read as a decimal number.  Character lists are used so the parse computes by
kernel reduction. -/
def parseSuffix (t name : String) : Option Nat :=
  let tl := t.data
  let rest := name.data.drop tl.length
  if name.data.take tl.length = tl ∧ rest ≠ [] ∧ rest.all Char.isDigit then
    some (rest.foldl (fun acc c => acc * 10 + (c.toNat - '0'.toNat)) 0)
  else
    none

/-- The body of `NameAllocator.release_name` after the regex matched integer
`n`: `if n < pool["next"] or n not in pool["free"]: pool["free"].add(n)`. -/
def release_num (pools : Pools) (t : String) (n : Nat) : Pools :=
  let p := pools t
  if n < p.next ∨ n ∉ p.free then
    Function.update pools t ⟨p.next, insert n p.free⟩
  else
    pools

/-- `NameAllocator.release_name`: parse the integer suffix (no-op when the name
does not match the `type_name(\d+)` pattern), then add it to the free pool. -/
def release_name (pools : Pools) (t name : String) : Pools :=
  match parseSuffix t name with
  | none => pools
  | some n => release_num pools t n

/-- `ClickableObject.rename` (the allocator-relevant part): a rejected dialog
(empty new name) or an unchanged name leaves everything alone; otherwise the
old display name is released via `NameAllocator.release_name` and the display
name becomes the new string. -/
def rename (pools : Pools) (t oldName newName : String) : Pools × String :=
  if newName = "" ∨ newName = oldName then (pools, oldName)
  else (release_name pools t oldName, newName)

/-- The pools after one allocation for type `"Bag"` (which yields `"Bag1"`). -/
def pools1 : Pools := (next_name initPools "Bag").2

/-- A pools state whose `"Bag"` pool has `next = 3` and free pool `{1}`. -/
def poolsW : Pools := Function.update initPools "Bag" ⟨3, {1}⟩

end Alloc

/-! ## Scanner RFID ledger (src/main.py lines 695-706) -/

namespace Scan

/-- The ledger part of a `Scanner`: `scanned_rfids` is a Python set of strings,
`bag_added_rfids` a dict from bag name to set of strings, modelled as a total
function whose default (`setdefault`/`get` fallback) is the empty set. -/
structure ScanLedger where
  scanned : Finset String
  bagAdded : String → Finset String

/-- A fresh `Scanner`'s ledger: `set()` and `{}`. -/
def initLedger : ScanLedger := ⟨∅, fun _ => ∅⟩

/-- `Scanner.add_rfid_from_bag(rfid, bag)`: returns unchanged if `bag is None`
or the RFID was already scanned (first-seen wins); otherwise adds the RFID to
`scanned_rfids` and to `bag_added_rfids[bag.name]`. -/
def add_rfid_from_bag (s : ScanLedger) (rfid : String) (bag : Option String) :
    ScanLedger :=
  match bag with
  | none => s
  | some b =>
    if rfid ∈ s.scanned then s
    else
      { scanned := insert rfid s.scanned,
        bagAdded := Function.update s.bagAdded b (insert rfid (s.bagAdded b)) }

/-- `Scanner.remove_rfids_from_bag(bag)`: subtracts `bag_added_rfids[bag.name]`
from `scanned_rfids` and resets that bag's entry to the empty set. -/
def remove_rfids_from_bag (s : ScanLedger) (b : String) : ScanLedger :=
  { scanned := s.scanned \ s.bagAdded b,
    bagAdded := Function.update s.bagAdded b ∅ }

/-- One ledger call: a `record` (via `Bag.add_item`'s forwarding) or a `purge`
(via `Bag.remove_item` / `remove_all_items`). -/
inductive ScanOp where
  | record (rfid : String) (bag : Option String)
  | purge (bag : String)

/-- Dispatch one ledger call. -/
def scanStep (s : ScanLedger) (op : ScanOp) : ScanLedger :=
  match op with
  | .record r b => add_rfid_from_bag s r b
  | .purge b => remove_rfids_from_bag s b

/-- Run a sequence of ledger calls from the fresh ledger. -/
def runScan (ops : List ScanOp) : ScanLedger :=
  ops.foldl scanStep initLedger

/-- The ledger invariant: every bag's recorded set is inside `scanned`, and the
per-bag sets are pairwise disjoint (a consequence of first-seen-wins). -/
def LedgerInv (s : ScanLedger) : Prop :=
  (∀ b, s.bagAdded b ⊆ s.scanned) ∧
  (∀ b b', b ≠ b' → Disjoint (s.bagAdded b) (s.bagAdded b'))

end Scan

/-! ## Bag item membership (src/main.py lines 190-227) -/

namespace BagOps

/-- The outcome of `Bag.add_item`; the source reports each case through a
distinct message box and returns early. -/
inductive AddItemResult where
  | closedContainer
  | capacityExceeded
  | alreadyContained
  | added
deriving DecidableEq

/-- A presentation effect of `Bag.remove_item`: `item.show(cx, cy)` anchored
beside the bag's shape. -/
inductive RemEffect where
  | showNear (item : Nat)
deriving DecidableEq

/-- The state `Bag.add_item`/`Bag.remove_item` touch: the bag's own fields
(`is_open`, `max_items`, `items`, `name`), the attached scanner's ledger
(`none` when no scanner is attached), and per-item attributes (`hidden`, and
the attached tag's `rfid`, `none` when the item has no tag). -/
structure BagW where
  isOpen : Bool
  maxItems : Nat
  name : String
  items : List Nat
  itemTag : Nat → Option String
  itemHidden : Nat → Bool
  scanner : Option Scan.ScanLedger

/-- `Bag.add_item(item)`: closed check, capacity check
(`len(self.items) >= self.max_items`), duplicate check; on success append the
item, hide it, and — if a scanner is attached and the item has a tag — forward
`(tag.rfid, self)` to the scanner's ledger. -/
def add_item (w : BagW) (item : Nat) : AddItemResult × BagW :=
  if ¬ w.isOpen then (.closedContainer, w)
  else if w.maxItems ≤ w.items.length then (.capacityExceeded, w)
  else if item ∈ w.items then (.alreadyContained, w)
  else
    let w1 := { w with items := w.items ++ [item],
                       itemHidden := Function.update w.itemHidden item true }
    match w1.scanner, w.itemTag item with
    | some led, some rfid =>
      (.added,
        { w1 with scanner := some (Scan.add_rfid_from_bag led rfid (some w.name)) })
    | _, _ => (.added, w1)

/-- `Bag.remove_item(item)`: silently does nothing when the item is absent.
When present: remove it from `items`; if a scanner is attached **and the item
has an attached tag**, purge this bag's ledger contribution; then show the item
beside the bag (which unhides it). -/
def remove_item (w : BagW) (item : Nat) : BagW × List RemEffect :=
  if item ∈ w.items then
    let w1 := { w with items := w.items.erase item }
    let w2 :=
      match w1.scanner, w.itemTag item with
      | some led, some _ =>
        { w1 with scanner := some (Scan.remove_rfids_from_bag led w.name) }
      | _, _ => w1
    ({ w2 with itemHidden := Function.update w2.itemHidden item false },
      [.showNear item])
  else (w, [])

/-- One membership call on a bag. -/
inductive BagOp where
  | add (item : Nat)
  | remove (item : Nat)

/-- Dispatch one membership call, keeping only the state. -/
def bagStep (w : BagW) (op : BagOp) : BagW :=
  match op with
  | .add i => (add_item w i).2
  | .remove i => (remove_item w i).1

/-- Run a sequence of membership calls. -/
def runBag (w : BagW) (ops : List BagOp) : BagW :=
  ops.foldl bagStep w

/-- A concrete closed, full bag (`max_items = 1`, one item) with no scanner. -/
def wFull : BagW :=
  { isOpen := false, maxItems := 1, name := "Bag1", items := [4],
    itemTag := fun _ => none, itemHidden := fun _ => true, scanner := none }

/-- A concrete scanner ledger attributing `"r1"` to bag `"B1"`. -/
def ledgerL : Scan.ScanLedger := ⟨{"r1"}, fun b => if b = "B1" then {"r1"} else ∅⟩

/-- A concrete open bag with the scanner ledger `ledgerL` attached, holding
tagged item 1 (tag RFID `"r1"`) and untagged item 2. -/
def wLedger : BagW :=
  { isOpen := true, maxItems := 5, name := "B1", items := [1, 2],
    itemTag := fun i => if i = 1 then some "r1" else none,
    itemHidden := fun _ => true,
    scanner := some ledgerL }

/-- A concrete open, empty bag with `max_items = 1` and no scanner. -/
def wOpen : BagW :=
  { isOpen := true, maxItems := 1, name := "Bag2", items := [],
    itemTag := fun _ => none, itemHidden := fun _ => false, scanner := none }

end BagOps

/-! ## Scanner attachment (src/main.py lines 230-243 and 647-657) -/

namespace SB

/-- The outcome of `Scanner.attach_to_bag`, reported via message boxes. -/
inductive AttachScanResult where
  | closedContainer
  | alreadyAttached
  | ok
deriving DecidableEq

/-- The state touched by scanner↔bag attachment: one bag (`is_open`,
`attached_scanner`) and the scanners' `attached_bag` pointers and `hidden`
flags, indexed by scanner identity. -/
structure SBW where
  bagOpen : Bool
  bagScanner : Option Nat
  scannerBag : Nat → Option Unit
  scannerHidden : Nat → Bool

/-- `Scanner.attach_to_bag(bag)`: warns and returns if the bag is closed; if
the bag has no scanner, sets both pointers and hides the scanner; otherwise
reports that the bag already has one. -/
def attach_to_bag (v : SBW) (s : Nat) : AttachScanResult × SBW :=
  if ¬ v.bagOpen then (.closedContainer, v)
  else
    match v.bagScanner with
    | none =>
      (.ok, { v with bagScanner := some s,
                     scannerBag := Function.update v.scannerBag s (some ()),
                     scannerHidden := Function.update v.scannerHidden s true })
    | some _ => (.alreadyAttached, v)

/-- `Bag.add_scanner(scanner)`: returns `False` on a closed bag or when a
scanner is already attached; otherwise sets both pointers, hides the scanner
and returns `True`. -/
def add_scanner (v : SBW) (s : Nat) : Bool × SBW :=
  if ¬ v.bagOpen then (false, v)
  else
    match v.bagScanner with
    | none =>
      (true, { v with bagScanner := some s,
                      scannerBag := Function.update v.scannerBag s (some ()),
                      scannerHidden := Function.update v.scannerHidden s true })
    | some _ => (false, v)

/-- A concrete closed bag with no scanner attached. -/
def vClosed : SBW :=
  { bagOpen := false, bagScanner := none,
    scannerBag := fun _ => none, scannerHidden := fun _ => false }

end SB

/-! ## Tag↔Item attachment (src/main.py lines 410-432 and 552-571) -/

namespace Attach

/-- The outcome of `Item.attach_tag`, reported via a message box. -/
inductive TagAttachResult where
  | alreadyAttached
  | ok
deriving DecidableEq

/-- The state touched by tag↔item attachment, over item identities `I` and tag
identities `T`: the two pointer maps, the tags' `hidden` flags, each item's
displayed `rfid` string (`"No RFID"` sentinel), and each tag's immutable
`rfid`. -/
structure AttachWorld (I T : Type) where
  itemTag : I → Option T
  tagItem : T → Option I
  tagHidden : T → Bool
  itemRfid : I → String
  tagRfid : T → String

variable {I T : Type} [DecidableEq I] [DecidableEq T]

/-- `Item.attach_tag(tag)`: reports already-attached if **the item** holds a
tag (the tag's own side is not checked); otherwise sets both pointers and
copies the tag's rfid onto the item. -/
def attach_tag (w : AttachWorld I T) (i : I) (t : T) :
    TagAttachResult × AttachWorld I T :=
  match w.itemTag i with
  | some _ => (.alreadyAttached, w)
  | none =>
    (.ok,
      { w with itemTag := Function.update w.itemTag i (some t),
               tagItem := Function.update w.tagItem t (some i),
               itemRfid := Function.update w.itemRfid i (w.tagRfid t) })

/-- `Tag.attach_to_item(item)`: only acts when **both** sides are free — sets
both pointers and hides the tag; otherwise silently does nothing. -/
def attach_to_item (w : AttachWorld I T) (t : T) (i : I) : AttachWorld I T :=
  if w.tagItem t = none ∧ w.itemTag i = none then
    { w with tagItem := Function.update w.tagItem t (some i),
             itemTag := Function.update w.itemTag i (some t),
             tagHidden := Function.update w.tagHidden t true }
  else w

/-- `Item.remove_tag()`: when a tag is attached, clears both pointers, resets
the item's displayed rfid to the sentinel, and shows the tag. -/
def remove_tag (w : AttachWorld I T) (i : I) : AttachWorld I T :=
  match w.itemTag i with
  | some t =>
    { w with itemTag := Function.update w.itemTag i none,
             tagItem := Function.update w.tagItem t none,
             itemRfid := Function.update w.itemRfid i "No RFID",
             tagHidden := Function.update w.tagHidden t false }
  | none => w

/-- `Tag.detach_from_item()`: when attached, clears both pointers and shows
the tag (the item's displayed rfid is left alone here). -/
def detach_from_item (w : AttachWorld I T) (t : T) : AttachWorld I T :=
  match w.tagItem t with
  | some i =>
    { w with tagItem := Function.update w.tagItem t none,
             itemTag := Function.update w.itemTag i none,
             tagHidden := Function.update w.tagHidden t false }
  | none => w

/-- The claimed invariant on a pointer pair: `Tag.attached_item == I` iff
`I.attached_tag == that Tag`. -/
abbrev SymmF (f : I → Option T) (g : T → Option I) : Prop :=
  ∀ i t, f i = some t ↔ g t = some i

/-- Attachment symmetry for a whole world. -/
abbrev Symm (w : AttachWorld I T) : Prop := SymmF w.itemTag w.tagItem

/-- A concrete world: tag 0 attached to item 0, item 1 free. -/
def wSymm : AttachWorld (Fin 2) (Fin 1) :=
  { itemTag := fun i => if i = 0 then some 0 else none,
    tagItem := fun _ => some 0,
    tagHidden := fun _ => true,
    itemRfid := fun i => if i = 0 then "R1" else "No RFID",
    tagRfid := fun _ => "R1" }

/-- A concrete fully-detached world. -/
def wFree : AttachWorld (Fin 1) (Fin 1) :=
  { itemTag := fun _ => none, tagItem := fun _ => none,
    tagHidden := fun _ => false,
    itemRfid := fun _ => "No RFID", tagRfid := fun _ => "R9" }

end Attach

/-! ## Cascading deletion (src/main.py lines 128-135 and 256-283) -/

namespace Cascade

/-- The state `Bag.delete_self` touches: the registry
(`ClickableObject.instances`, entities by identifier in insertion order), the
bag's `items`, the tag↔item pointers, the tags' and scanner's visibility, the
scanner attachment, and — to record that `delete_self` never calls
`NameAllocator.release_name` — the allocator pools. -/
structure World where
  instances : List Nat
  bagItems : List Nat
  itemTag : Nat → Option Nat
  tagItem : Nat → Option Nat
  tagHidden : Nat → Bool
  bagScanner : Option Nat
  scannerBag : Option Nat
  scannerHidden : Bool
  pools : Alloc.Pools

/-- `Tag.detach_from_item` as invoked by `delete_self`: when the tag points at
an item, clear both pointers and show the tag beside the item. -/
def detachTagFromItem (w : World) (t : Nat) : World :=
  match w.tagItem t with
  | some i =>
    { w with tagItem := Function.update w.tagItem t none,
             itemTag := Function.update w.itemTag i none,
             tagHidden := Function.update w.tagHidden t false }
  | none => w

/-- One iteration of `delete_self`'s loop over `self.items[:]`: detach the
item's tag if any, then re-read `item.attached_tag` (the source tests
`if item.attached_tag in ClickableObject.instances` **after** the detach has
already reset `item.attached_tag` to `None`) and unregister the re-read value
when it is a registered entity; unregister the item; drop the item from the
bag's list. -/
def cascadeStep (w : World) (item : Nat) : World :=
  let w1 :=
    match w.itemTag item with
    | some t =>
      let wd := detachTagFromItem w t
      match wd.itemTag item with
      | some t2 => { wd with instances := wd.instances.erase t2 }
      | none => wd
    | none => w
  let w2 :=
    if item ∈ w1.instances then { w1 with instances := w1.instances.erase item }
    else w1
  { w2 with bagItems := w2.bagItems.erase item }

/-- `Bag.remove_scanner` as invoked by `delete_self`: when a scanner is
attached, clear its back pointer, show it beside the bag, and clear the bag's
pointer. -/
def bagRemoveScanner (w : World) : World :=
  match w.bagScanner with
  | some _ =>
    { w with scannerBag := none, scannerHidden := false, bagScanner := none }
  | none => w

/-- `Bag.delete_self`: loop over a snapshot of `items`, then remove the
scanner if attached, then unregister the bag itself.  No name is ever
released. -/
def delete_self (bagId : Nat) (w : World) : World :=
  let w1 := w.bagItems.foldl cascadeStep w
  let w2 := bagRemoveScanner w1
  if bagId ∈ w2.instances then { w2 with instances := w2.instances.erase bagId }
  else w2

/-- A concrete world: bag 0 (registered first) contains item 1, which carries
tag 2; scanner 3 is attached to the bag; the allocator has one outstanding
name per type. -/
def wCascade : World :=
  { instances := [0, 1, 2, 3], bagItems := [1],
    itemTag := fun i => if i = 1 then some 2 else none,
    tagItem := fun t => if t = 2 then some 1 else none,
    tagHidden := fun t => if t = 2 then true else false,
    bagScanner := some 3, scannerBag := some 0, scannerHidden := true,
    pools := Alloc.initPools }

end Cascade

/-! ## Item.show (src/main.py lines 398-407 and 542-550) -/

namespace ShowOp

/-- The state of a `Tag` relevant to `Tag.show`. -/
structure TagS where
  hidden : Bool
deriving DecidableEq

/-- The state of an `Item` relevant to `Item.show`: its `hidden` flag and its
optional attached tag. -/
structure ItemS where
  hidden : Bool
  tag : Option TagS
deriving DecidableEq

/-- The outcome of a Python call that may raise: either a normal return or a
`TypeError`, each carrying the state as mutated up to that point. -/
inductive ShowOutcome where
  | ok (st : ItemS)
  | typeError (st : ItemS)
deriving DecidableEq

/-- `Tag.show(cx, cy)` with both coordinates present: unhide if hidden. -/
def tagShow (t : TagS) : TagS :=
  if t.hidden then { hidden := false } else t

/-- `Item.show(cx=None, cy=None)`: a no-op on a visible item.  On a hidden
item: clear `hidden` (and re-show the canvas items); then, if a tag is
attached, call `self.attached_tag.show(cx + 50, cy + 20)` — when either
coordinate is `None` the argument expression `None + int` raises `TypeError`,
*after* the item has already been unhidden. -/
def itemShow (it : ItemS) (cx cy : Option ℚ) : ShowOutcome :=
  if it.hidden then
    let it1 : ItemS := { it with hidden := false }
    match it1.tag with
    | some t =>
      match cx, cy with
      | some _, some _ => .ok { it1 with tag := some (tagShow t) }
      | _, _ => .typeError it1
    | none => .ok it1
  else .ok it

end ShowOp

/-! ## Nearest-neighbour queries (src/main.py lines 480-497, 590-607, 719-736)

The three query methods share one loop: scan `ClickableObject.instances` in
registration order, keep the candidates passing an `isinstance`/state test and
having a laid-out centre, and track the running best under
`dist = ((x1-x2)**2 + (y1-y2)**2) ** 0.5;  if dist < nearest_dist: ...` with
`nearest_dist` starting at the method's `max_distance`.  All compared
quantities are nonnegative square roots, and `Real.sqrt` is strictly
monotone on nonnegative arguments, so the embedding tracks *squared*
distances over `ℚ` (thresholds squared accordingly: 80² = 6400, 60² = 3600);
every comparison made by the loop has the same outcome. -/

namespace Nearest

/-- A point of the canvas. -/
abbrev Q2 : Type := ℚ × ℚ

/-- The variant and state bits the three predicates inspect:
`isinstance(obj, Bag) [and obj.is_open]`, `isinstance(obj, Item) and
obj.attached_tag is None`. -/
inductive EntKind where
  | bag (isOpen : Bool)
  | item (hasTag : Bool)
  | tag
  | scanner
deriving DecidableEq

/-- A registered entity as the queries see it: its kind/state and its centre
(`None` when `canvas.bbox` gives nothing, skipped by the loop). -/
structure Ent where
  kind : EntKind
  center : Option Q2
deriving DecidableEq

/-- Squared Euclidean distance. -/
def distSq (a b : Q2) : ℚ := (a.1 - b.1) ^ 2 + (a.2 - b.2) ^ 2

/-- `isinstance(obj, Bag) and obj.is_open` (predicate of
`Item.find_nearest_bag`). -/
def isOpenBag (o : Ent) : Bool :=
  match o.kind with
  | .bag true => true
  | _ => false

/-- `isinstance(obj, Bag)` (predicate of `Scanner._find_nearest_bag`). -/
def isAnyBag (o : Ent) : Bool :=
  match o.kind with
  | .bag _ => true
  | _ => false

/-- `isinstance(obj, Item) and obj.attached_tag is None` (predicate of
`Tag.find_nearest_item`). -/
def isUntaggedItem (o : Ent) : Bool :=
  match o.kind with
  | .item false => true
  | _ => false

/-- The shared scanning loop, over squared distances: `best` is the current
`nearest`, `bd` the current `nearest_dist` (squared). -/
def nearestScanAux (c : Q2) (p : Ent → Bool) :
    List Ent → Option Ent → ℚ → Option Ent
  | [], best, _ => best
  | a :: rest, best, bd =>
    if p a = true then
      match a.center with
      | none => nearestScanAux c p rest best bd
      | some ca =>
        if distSq c ca < bd then nearestScanAux c p rest (some a) (distSq c ca)
        else nearestScanAux c p rest best bd
    else nearestScanAux c p rest best bd

/-- The scan started with `nearest = None` and `nearest_dist = max_distance`
(squared). -/
def nearestScan (c : Q2) (p : Ent → Bool) (thrSq : ℚ) (objs : List Ent) :
    Option Ent :=
  nearestScanAux c p objs none thrSq

/-- `Item.find_nearest_bag(max_distance=80)`: `None` when the item's own
centre is missing, else the scan over open bags. -/
def find_nearest_bag (selfCenter : Option Q2) (objs : List Ent) : Option Ent :=
  match selfCenter with
  | none => none
  | some c => nearestScan c isOpenBag 6400 objs

/-- `Tag.find_nearest_item(max_distance=60)`: `None` when the tag's own centre
is missing, else the scan over unattached items. -/
def find_nearest_item (selfCenter : Option Q2) (objs : List Ent) : Option Ent :=
  match selfCenter with
  | none => none
  | some c => nearestScan c isUntaggedItem 3600 objs

/-- `Scanner._find_nearest_bag(max_dist=60)`: `None` when the scanner's own
centre is missing, else the scan over all bags. -/
def scanner_find_nearest_bag (selfCenter : Option Q2) (objs : List Ent) :
    Option Ent :=
  match selfCenter with
  | none => none
  | some c => nearestScan c isAnyBag 3600 objs

/-- Decidable test: `o` passes the predicate and lies strictly within the
(squared) threshold of `c`. -/
def isCandWithin (c : Q2) (p : Ent → Bool) (thrSq : ℚ) (o : Ent) : Bool :=
  p o && (Option.any (fun cc => decide (distSq c cc < thrSq)) o.center)

/-- The specification a nearest query must satisfy: it answers `none` exactly
when no predicate-satisfying, laid-out entity lies strictly within the
threshold; and an answer `some o` is a candidate strictly within the
threshold of minimum squared distance, placed in the scanned list so that
every earlier candidate is strictly farther (ties go to the first-registered)
and every later candidate is at least as far. -/
def NearestSpec (c : Q2) (p : Ent → Bool) (thrSq : ℚ) (objs : List Ent)
    (res : Option Ent) : Prop :=
  (res = none ↔ ∀ o ∈ objs, isCandWithin c p thrSq o = false) ∧
  (∀ o, res = some o →
    p o = true ∧ ∃ cc, o.center = some cc ∧ distSq c cc < thrSq ∧
      ∃ l₁ l₂, objs = l₁ ++ o :: l₂ ∧
        (∀ o' ∈ l₁, ∀ cc', p o' = true → o'.center = some cc' →
          distSq c cc < distSq c cc') ∧
        (∀ o' ∈ l₂, ∀ cc', p o' = true → o'.center = some cc' →
          distSq c cc ≤ distSq c cc'))

end Nearest

/-! ## Theorems -/

/-- Claim C4, counterexample: renaming `"Bag1"` (outstanding: the allocator just
produced it) to `"Sack"` does affect the `NameAllocator` — the integer 1 moves
into the `"Bag"` free pool, which the claim says never changes on a rename. -/
theorem rename_changes_allocator :
    (Alloc.next_name Alloc.initPools "Bag").1 = "Bag1" ∧
    1 ∉ (Alloc.pools1 "Bag").free ∧
    1 ∈ ((Alloc.rename Alloc.pools1 "Bag" "Bag1" "Sack").1 "Bag").free := by
  refine ⟨by decide, by decide, by decide⟩

/-- Claim C4, amended: `rename` touches the allocator exactly through
`release_name` on the old display name, so whenever the old display name does
not match the `type_name(\d+)` allocator pattern, the rename leaves the
allocator's pools completely unchanged (and likewise when the dialog is
cancelled or the name is unchanged). -/
theorem rename_frame (pools : Alloc.Pools) (t oldName newName : String)
    (h : Alloc.parseSuffix t oldName = none) :
    (Alloc.rename pools t oldName newName).1 = pools := by
  unfold Alloc.rename
  split
  · rfl
  · show Alloc.release_name pools t oldName = pools
    unfold Alloc.release_name
    rw [h]

/-- Witness for `rename_frame` at a concrete input. -/
theorem rename_frame_witness :
    Alloc.parseSuffix "Bag" "Sack" = none ∧
    (Alloc.rename Alloc.initPools "Bag" "Sack" "Thing").1 = Alloc.initPools :=
  ⟨by decide, rename_frame Alloc.initPools "Bag" "Sack" "Thing" (by decide)⟩

/-- Claim C5, counterexample: in the fresh allocator nothing is outstanding for
`"Bag"` (`next = 1`, empty free pool), so 5 is not outstanding; yet
`release_name` on `"Bag5"` is not a no-op — it adds 5 to the free pool, and the
next `next_name "Bag"` then returns `"Bag5"` instead of the smallest positive
integer not outstanding (which is 1, i.e. `"Bag1"`). -/
theorem release_not_noop :
    (Alloc.initPools "Bag").next = 1 ∧
    5 ∉ (Alloc.initPools "Bag").free ∧
    5 ∈ ((Alloc.release_name Alloc.initPools "Bag" "Bag5") "Bag").free ∧
    (Alloc.next_name (Alloc.release_name Alloc.initPools "Bag" "Bag5") "Bag").1
      = "Bag5" ∧
    (Alloc.next_name Alloc.initPools "Bag").1 = "Bag1" := by
  refine ⟨by decide, by decide, by decide, by decide, by decide⟩

/-- Claim C5, amended: `release_name` on an integer that is currently in the
free pool (one flavour of "not outstanding") is a genuine no-op on the
allocator state; releasing an integer that was never allocated (`n ≥ next`)
instead inserts it into the free pool, as `release_not_noop` shows. -/
theorem release_free_noop (pools : Alloc.Pools) (t name : String) (n : Nat)
    (hp : Alloc.parseSuffix t name = some n) (hf : n ∈ (pools t).free) :
    Alloc.release_name pools t name = pools := by
  have h1 : insert n (pools t).free = (pools t).free :=
    Finset.insert_eq_self.mpr hf
  simp only [Alloc.release_name, hp, Alloc.release_num, h1]
  split
  · exact Function.update_eq_self t pools
  · rfl

/-- Witness for `release_free_noop` at a concrete input. -/
theorem release_free_noop_witness :
    Alloc.parseSuffix "Bag" "Bag1" = some 1 ∧
    1 ∈ (Alloc.poolsW "Bag").free ∧
    Alloc.release_name Alloc.poolsW "Bag" "Bag1" = Alloc.poolsW :=
  ⟨by decide, by decide, release_free_noop Alloc.poolsW "Bag" "Bag1" 1 (by decide) (by decide)⟩

/-- Recording an RFID preserves the ledger invariant. -/
theorem ledgerInv_record (s : Scan.ScanLedger) (r : String) (ob : Option String)
    (h : Scan.LedgerInv s) :
    Scan.LedgerInv (Scan.add_rfid_from_bag s r ob) := by
  obtain ⟨hsub, hdis⟩ := h
  cases ob with
  | none => exact ⟨hsub, hdis⟩
  | some b =>
    simp only [Scan.add_rfid_from_bag]
    split_ifs with hr
    · exact ⟨hsub, hdis⟩
    · constructor
      · intro b0
        show Function.update s.bagAdded b (insert r (s.bagAdded b)) b0
          ⊆ insert r s.scanned
        by_cases hb : b0 = b
        · rw [hb, Function.update_same]
          exact Finset.insert_subset_insert _ (hsub b)
        · rw [Function.update_noteq hb]
          exact (hsub b0).trans (Finset.subset_insert _ _)
      · intro b0 b1 hne
        show Disjoint (Function.update s.bagAdded b (insert r (s.bagAdded b)) b0)
          (Function.update s.bagAdded b (insert r (s.bagAdded b)) b1)
        rw [Finset.disjoint_left]
        intro x hx0 hx1
        by_cases hb0 : b0 = b <;> by_cases hb1 : b1 = b
        · exact hne (hb0.trans hb1.symm)
        · rw [hb0, Function.update_same] at hx0
          rw [Function.update_noteq hb1] at hx1
          rcases Finset.mem_insert.mp hx0 with hx | hx
          · exact hr (hsub b1 (hx ▸ hx1))
          · exact Finset.disjoint_left.mp (hdis b b1 (hb0 ▸ hne)) hx hx1
        · rw [hb1, Function.update_same] at hx1
          rw [Function.update_noteq hb0] at hx0
          rcases Finset.mem_insert.mp hx1 with hx | hx
          · exact hr (hsub b0 (hx ▸ hx0))
          · exact Finset.disjoint_left.mp (hdis b0 b (hb1 ▸ hne)) hx0 hx
        · rw [Function.update_noteq hb0] at hx0
          rw [Function.update_noteq hb1] at hx1
          exact Finset.disjoint_left.mp (hdis b0 b1 hne) hx0 hx1

/-- Purging a bag's contribution preserves the ledger invariant. -/
theorem ledgerInv_purge (s : Scan.ScanLedger) (b : String)
    (h : Scan.LedgerInv s) :
    Scan.LedgerInv (Scan.remove_rfids_from_bag s b) := by
  obtain ⟨hsub, hdis⟩ := h
  constructor
  · intro b0
    show Function.update s.bagAdded b ∅ b0 ⊆ s.scanned \ s.bagAdded b
    by_cases hb : b0 = b
    · rw [hb, Function.update_same]
      exact Finset.empty_subset _
    · rw [Function.update_noteq hb]
      intro x hx
      rw [Finset.mem_sdiff]
      exact ⟨hsub b0 hx, Finset.disjoint_left.mp (hdis b0 b hb) hx⟩
  · intro b0 b1 hne
    show Disjoint (Function.update s.bagAdded b ∅ b0)
      (Function.update s.bagAdded b ∅ b1)
    by_cases hb0 : b0 = b <;> by_cases hb1 : b1 = b
    · exact absurd (hb0.trans hb1.symm) hne
    · rw [hb0, Function.update_same]
      exact Finset.disjoint_empty_left _
    · rw [hb1, Function.update_same]
      exact Finset.disjoint_empty_right _
    · rw [Function.update_noteq hb0, Function.update_noteq hb1]
      exact hdis b0 b1 hne

/-- Every ledger state reachable by `record`/`purge` calls satisfies the
invariant. -/
theorem ledgerInv_run (ops : List Scan.ScanOp) :
    Scan.LedgerInv (Scan.runScan ops) := by
  suffices h : ∀ (l : List Scan.ScanOp) (s : Scan.ScanLedger),
      Scan.LedgerInv s → Scan.LedgerInv (l.foldl Scan.scanStep s) from
    h ops Scan.initLedger
      ⟨fun _ => Finset.empty_subset _, fun _ _ _ => Finset.disjoint_empty_left _⟩
  intro l
  induction l with
  | nil => exact fun s hs => hs
  | cons op rest ih =>
    intro s hs
    refine ih _ ?_
    cases op with
    | record r ob => exact ledgerInv_record s r ob hs
    | purge b0 => exact ledgerInv_purge s b0 hs

/-- Claim C3: after any sequence of `record`/`purge` calls, every bag's
recorded set is a subset of `scanned_rfids`; a `purge(scanner, bag)` removes
exactly `rfids_by_bag[bag]` from `scanned_rfids` (that set being a subset of
`scanned_rfids`, the set difference removes precisely it), clears that bag's
entry, and leaves every other bag's recorded contribution untouched — both its
`rfids_by_bag` entry and its membership in `scanned_rfids`. -/
theorem ledger_consistency (ops : List Scan.ScanOp) :
    (∀ b, (Scan.runScan ops).bagAdded b ⊆ (Scan.runScan ops).scanned) ∧
    (∀ bag,
      (Scan.remove_rfids_from_bag (Scan.runScan ops) bag).scanned
        = (Scan.runScan ops).scanned \ (Scan.runScan ops).bagAdded bag ∧
      (Scan.runScan ops).bagAdded bag ⊆ (Scan.runScan ops).scanned ∧
      (Scan.remove_rfids_from_bag (Scan.runScan ops) bag).bagAdded bag = ∅ ∧
      (∀ b, b ≠ bag →
        (Scan.remove_rfids_from_bag (Scan.runScan ops) bag).bagAdded b
          = (Scan.runScan ops).bagAdded b ∧
        (Scan.remove_rfids_from_bag (Scan.runScan ops) bag).bagAdded b
          ⊆ (Scan.remove_rfids_from_bag (Scan.runScan ops) bag).scanned)) := by
  obtain ⟨hsub, hdis⟩ := ledgerInv_run ops
  refine ⟨hsub, fun bag => ⟨rfl, hsub bag, ?_, fun b hb => ⟨?_, ?_⟩⟩⟩
  · show Function.update (Scan.runScan ops).bagAdded bag ∅ bag = ∅
    exact Function.update_same bag ∅ _
  · show Function.update (Scan.runScan ops).bagAdded bag ∅ b
      = (Scan.runScan ops).bagAdded b
    exact Function.update_noteq hb ∅ _
  · show Function.update (Scan.runScan ops).bagAdded bag ∅ b
      ⊆ (Scan.runScan ops).scanned \ (Scan.runScan ops).bagAdded bag
    rw [Function.update_noteq hb]
    intro x hx
    rw [Finset.mem_sdiff]
    exact ⟨hsub b hx, Finset.disjoint_left.mp (hdis b bag hb) hx⟩

/-- Witness for `ledger_consistency`: two RFIDs recorded via two bags; purging
bag `"B2"` leaves bag `"B1"`'s contribution untouched. -/
theorem ledger_consistency_witness :
    (Scan.remove_rfids_from_bag
        (Scan.runScan
          [.record "r1" (some "B1"), .record "r2" (some "B2")]) "B2").bagAdded "B1"
      = (Scan.runScan
          [.record "r1" (some "B1"), .record "r2" (some "B2")]).bagAdded "B1" :=
  (((ledger_consistency
        [.record "r1" (some "B1"), .record "r2" (some "B2")]).2 "B2").2.2.2 "B1"
    (by decide)).1

/-- `add_item` never changes `max_items`, and either leaves `items` unchanged
(one of the three failure branches) or appends the item, in which case the old
length was strictly below `max_items`. -/
theorem add_item_state (w : BagOps.BagW) (i : Nat) :
    (BagOps.add_item w i).2.maxItems = w.maxItems ∧
    ((BagOps.add_item w i).2.items = w.items ∨
      ((BagOps.add_item w i).2.items = w.items ++ [i] ∧
        w.items.length < w.maxItems)) := by
  simp only [BagOps.add_item]
  split_ifs with h1 h2 h3
  · exact ⟨rfl, Or.inl rfl⟩
  · exact ⟨rfl, Or.inl rfl⟩
  · have hlt : w.items.length < w.maxItems := Nat.lt_of_not_le h2
    split
    · exact ⟨rfl, Or.inr ⟨rfl, hlt⟩⟩
    · exact ⟨rfl, Or.inr ⟨rfl, hlt⟩⟩
  · exact ⟨rfl, Or.inl rfl⟩

/-- `remove_item` never changes `max_items`, and either leaves `items`
unchanged or erases the item. -/
theorem remove_item_state (w : BagOps.BagW) (i : Nat) :
    (BagOps.remove_item w i).1.maxItems = w.maxItems ∧
    ((BagOps.remove_item w i).1.items = w.items ∨
      (BagOps.remove_item w i).1.items = w.items.erase i) := by
  simp only [BagOps.remove_item]
  split_ifs with h
  · split
    · exact ⟨rfl, Or.inr rfl⟩
    · exact ⟨rfl, Or.inr rfl⟩
  · exact ⟨rfl, Or.inl rfl⟩

/-- Claim C6, counterexample: a closed bag already holding `max_items` items
rejects `add_item` with `ClosedContainer` (the closed check runs first), not
with `CapacityExceeded` as the claim requires of every full bag. -/
theorem add_item_full_closed_result :
    BagOps.wFull.items.length = BagOps.wFull.maxItems ∧
    (BagOps.add_item BagOps.wFull 5).1 = .closedContainer ∧
    (BagOps.add_item BagOps.wFull 5).1 ≠ .capacityExceeded := by
  refine ⟨by decide, by decide, by decide⟩

/-- Claim C6, amended: after any sequence of `add_item`/`remove_item` calls on
a bag satisfying `len(items) ≤ max_items`, the bound still holds; `add_item`
on an **open** bag already at (or beyond) capacity fails with
`CapacityExceeded` leaving the state unchanged, while on a closed bag it fails
with `ClosedContainer` (regardless of fullness), likewise unchanged. -/
theorem capacity_invariant (w : BagOps.BagW) (ops : List BagOps.BagOp)
    (item : Nat) :
    (w.items.length ≤ w.maxItems →
      (BagOps.runBag w ops).items.length ≤ (BagOps.runBag w ops).maxItems) ∧
    (w.isOpen = true → w.maxItems ≤ w.items.length →
      BagOps.add_item w item = (.capacityExceeded, w)) ∧
    (w.isOpen = false → BagOps.add_item w item = (.closedContainer, w)) := by
  refine ⟨?_, ?_, ?_⟩
  · suffices hstep : ∀ (l : List BagOps.BagOp) (v : BagOps.BagW),
        v.items.length ≤ v.maxItems →
        (l.foldl BagOps.bagStep v).items.length
          ≤ (l.foldl BagOps.bagStep v).maxItems from hstep ops w
    intro l
    induction l with
    | nil => exact fun v hv => hv
    | cons op rest ih =>
      intro v hv
      refine ih _ ?_
      cases op with
      | add i =>
        obtain ⟨hmax, hit⟩ := add_item_state v i
        show (BagOps.add_item v i).2.items.length ≤ (BagOps.add_item v i).2.maxItems
        rw [hmax]
        rcases hit with h | ⟨h, hlt⟩
        · rw [h]; exact hv
        · rw [h]; simpa using hlt
      | remove i =>
        obtain ⟨hmax, hit⟩ := remove_item_state v i
        show (BagOps.remove_item v i).1.items.length ≤ (BagOps.remove_item v i).1.maxItems
        rw [hmax]
        rcases hit with h | h
        · rw [h]; exact hv
        · rw [h]
          exact le_trans (v.items.erase_sublist i).length_le hv
  · intro hopen hfull
    simp [BagOps.add_item, hopen, hfull]
  · intro hclosed
    simp [BagOps.add_item, hclosed]

/-- Witness for `capacity_invariant`: an open bag with `max_items = 1` keeps
`len(items) ≤ max_items` across three `add_item` calls. -/
theorem capacity_invariant_witness :
    BagOps.wOpen.items.length ≤ BagOps.wOpen.maxItems ∧
    (BagOps.runBag BagOps.wOpen [.add 1, .add 2, .add 3]).items.length
      ≤ (BagOps.runBag BagOps.wOpen [.add 1, .add 2, .add 3]).maxItems :=
  ⟨by decide, (capacity_invariant BagOps.wOpen [.add 1, .add 2, .add 3] 0).1 (by decide)⟩

/-- Claim C7: on a closed bag, `Bag.add_item` fails with `ClosedContainer`
mutating nothing, `Scanner.attach_to_bag` warns and mutates nothing, and
`Bag.add_scanner` returns `False` mutating nothing. -/
theorem open_state_gating (w : BagOps.BagW) (item : Nat) (v : SB.SBW)
    (s : Nat) :
    (w.isOpen = false → BagOps.add_item w item = (.closedContainer, w)) ∧
    (v.bagOpen = false → SB.attach_to_bag v s = (.closedContainer, v)) ∧
    (v.bagOpen = false → SB.add_scanner v s = (false, v)) := by
  refine ⟨fun h => ?_, fun h => ?_, fun h => ?_⟩
  · simp [BagOps.add_item, h]
  · simp [SB.attach_to_bag, h]
  · simp [SB.add_scanner, h]

/-- Witness for `open_state_gating` on concrete closed-bag states. -/
theorem open_state_gating_witness :
    BagOps.wFull.isOpen = false ∧ SB.vClosed.bagOpen = false ∧
    BagOps.add_item BagOps.wFull 9 = (.closedContainer, BagOps.wFull) ∧
    SB.attach_to_bag SB.vClosed 1 = (.closedContainer, SB.vClosed) ∧
    SB.add_scanner SB.vClosed 1 = (false, SB.vClosed) :=
  ⟨rfl, rfl, (open_state_gating BagOps.wFull 9 SB.vClosed 1).1 rfl,
    (open_state_gating BagOps.wFull 9 SB.vClosed 1).2.1 rfl,
    (open_state_gating BagOps.wFull 9 SB.vClosed 1).2.2 rfl⟩

/-- Claim C8, counterexample: removing the untagged item 2 from a bag with an
attached scanner leaves the scanner's ledger object completely untouched —
`"r1"` (recorded for this very bag) stays in `scanned_rfids` — although the
claim says the bag's contribution is purged whenever a scanner is attached;
an actual purge would have removed `"r1"`. -/
theorem remove_item_skips_purge :
    (2 ∈ BagOps.wLedger.items) ∧
    BagOps.wLedger.itemTag 2 = none ∧
    BagOps.wLedger.scanner = some BagOps.ledgerL ∧
    (BagOps.remove_item BagOps.wLedger 2).1.scanner = some BagOps.ledgerL ∧
    "r1" ∈ BagOps.ledgerL.scanned ∧
    "r1" ∈ BagOps.ledgerL.bagAdded "B1" ∧
    "r1" ∉ (Scan.remove_rfids_from_bag BagOps.ledgerL "B1").scanned := by
  refine ⟨by decide, by decide, rfl, rfl, by decide, by decide, by decide⟩

/-- Claim C8, amended: `remove_item` on an absent item is a silent no-op (no
`NotContained` signal, no state change, no effect). On a contained item it
erases the item from `items` and emits the show-beside-the-bag effect; the
scanner ledger is purged of this bag's contribution only when **both** a
scanner is attached **and** the removed item has an attached tag, and is left
untouched otherwise. -/
theorem remove_item_behaviour (w : BagOps.BagW) (item : Nat) :
    (item ∉ w.items → BagOps.remove_item w item = (w, [])) ∧
    (item ∈ w.items →
      (BagOps.remove_item w item).1.items = w.items.erase item ∧
      (BagOps.remove_item w item).2 = [.showNear item] ∧
      (w.itemTag item = none →
        (BagOps.remove_item w item).1.scanner = w.scanner) ∧
      (w.scanner = none → (BagOps.remove_item w item).1.scanner = none) ∧
      (∀ led rfid, w.scanner = some led → w.itemTag item = some rfid →
        (BagOps.remove_item w item).1.scanner
          = some (Scan.remove_rfids_from_bag led w.name))) := by
  constructor
  · intro habs
    simp [BagOps.remove_item, habs]
  · intro hmem
    refine ⟨?_, ?_, ?_, ?_, ?_⟩
    · rcases hscan : w.scanner with _ | led0 <;>
        rcases htag : w.itemTag item with _ | r0 <;>
        simp [BagOps.remove_item, if_pos hmem, hscan, htag]
    · rcases hscan : w.scanner with _ | led0 <;>
        rcases htag : w.itemTag item with _ | r0 <;>
        simp [BagOps.remove_item, if_pos hmem, hscan, htag]
    · intro htag
      rcases hscan : w.scanner with _ | led0 <;>
        simp [BagOps.remove_item, if_pos hmem, hscan, htag]
    · intro hscan
      rcases htag : w.itemTag item with _ | r0 <;>
        simp [BagOps.remove_item, if_pos hmem, hscan, htag]
    · intro led rfid hscan htag
      simp [BagOps.remove_item, if_pos hmem, hscan, htag]

/-- Witness for `remove_item_behaviour`: removing an absent item is a no-op,
and removing a contained item erases it and emits the show effect. -/
theorem remove_item_behaviour_witness :
    BagOps.remove_item BagOps.wLedger 5 = (BagOps.wLedger, []) ∧
    (BagOps.remove_item BagOps.wLedger 1).2 = [.showNear 1] :=
  ⟨(remove_item_behaviour BagOps.wLedger 5).1 (by decide),
    (((remove_item_behaviour BagOps.wLedger 1).2 (by decide)).2).1⟩

/-- Setting both pointers of a free tag/item pair preserves the symmetry
biconditional. -/
theorem symmF_set {I T : Type} [DecidableEq I] [DecidableEq T]
    (f : I → Option T) (g : T → Option I) (i : I) (t : T)
    (hi : f i = none) (ht : g t = none) (h : Attach.SymmF f g) :
    Attach.SymmF (Function.update f i (some t)) (Function.update g t (some i)) := by
  intro i' t'
  by_cases hii : i' = i <;> by_cases htt : t' = t
  · subst hii; subst htt
    rw [Function.update_same, Function.update_same]
    simp
  · subst hii
    rw [Function.update_same, Function.update_noteq htt]
    constructor
    · intro he
      exact absurd (Option.some_inj.mp he).symm htt
    · intro hg
      have hx := (h i' t').mpr hg
      rw [hi] at hx
      exact absurd hx (by simp)
  · subst htt
    rw [Function.update_noteq hii, Function.update_same]
    constructor
    · intro hf
      have hx := (h i' t').mp hf
      rw [ht] at hx
      exact absurd hx (by simp)
    · intro he
      exact absurd (Option.some_inj.mp he).symm hii
  · rw [Function.update_noteq hii, Function.update_noteq htt]
    exact h i' t'

/-- Clearing both pointers of an attached tag/item pair preserves the symmetry
biconditional. -/
theorem symmF_clear {I T : Type} [DecidableEq I] [DecidableEq T]
    (f : I → Option T) (g : T → Option I) (i : I) (t : T)
    (hit : f i = some t) (hti : g t = some i) (h : Attach.SymmF f g) :
    Attach.SymmF (Function.update f i none) (Function.update g t none) := by
  intro i' t'
  by_cases hii : i' = i <;> by_cases htt : t' = t
  · subst hii; subst htt
    rw [Function.update_same, Function.update_same]
    simp
  · subst hii
    rw [Function.update_same, Function.update_noteq htt]
    constructor
    · intro he
      exact absurd he (by simp)
    · intro hg
      have hf := (h i' t').mpr hg
      rw [hit] at hf
      exact absurd (Option.some_inj.mp hf).symm htt
  · subst htt
    rw [Function.update_noteq hii, Function.update_same]
    constructor
    · intro hf
      have hg := (h i' t').mp hf
      rw [hti] at hg
      exact absurd (Option.some_inj.mp hg).symm hii
    · intro he
      exact absurd he (by simp)
  · rw [Function.update_noteq hii, Function.update_noteq htt]
    exact h i' t'

/-- Claim C2, counterexample: in a symmetric world where tag 0 is attached to
item 0 and item 1 is free, `Item.attach_tag` on item 1 with tag 0 succeeds
(the claim requires `AlreadyAttached`, since the tag side holds an
attachment), and the resulting state violates the biconditional: item 0 still
points at tag 0 but tag 0 now points at item 1. -/
theorem attach_tag_breaks_symmetry :
    Attach.Symm Attach.wSymm ∧
    (Attach.attach_tag Attach.wSymm 1 0).1 = .ok ∧
    ¬ Attach.Symm (Attach.attach_tag Attach.wSymm 1 0).2 ∧
    (Attach.attach_tag Attach.wSymm 1 0).2.itemTag 0 = some 0 ∧
    (Attach.attach_tag Attach.wSymm 1 0).2.tagItem 0 = some 1 := by
  refine ⟨by decide, by decide, by decide, by decide, by decide⟩

/-- Claim C2, amended: starting from any symmetric state,
`Tag.attach_to_item` (which checks both sides and silently no-ops otherwise)
preserves the biconditional, as do `Item.remove_tag` and
`Tag.detach_from_item`; `Item.attach_tag` preserves it **provided the tag
side is unattached** — it checks only the item side, reporting
already-attached exactly when the item holds a tag, and every failing or
skipped call leaves the state entirely unchanged. -/
theorem attachment_symmetry_preserved {I T : Type} [DecidableEq I]
    [DecidableEq T] (w : Attach.AttachWorld I T) (hw : Attach.Symm w) :
    (∀ t i, Attach.Symm (Attach.attach_to_item w t i)) ∧
    (∀ i t, w.tagItem t = none → Attach.Symm (Attach.attach_tag w i t).2) ∧
    (∀ i t, (Attach.attach_tag w i t).1 = .alreadyAttached →
      (Attach.attach_tag w i t).2 = w) ∧
    (∀ t i, ¬ (w.tagItem t = none ∧ w.itemTag i = none) →
      Attach.attach_to_item w t i = w) ∧
    (∀ i, Attach.Symm (Attach.remove_tag w i)) ∧
    (∀ t, Attach.Symm (Attach.detach_from_item w t)) := by
  refine ⟨?_, ?_, ?_, ?_, ?_, ?_⟩
  · intro t i
    unfold Attach.attach_to_item
    split_ifs with h
    · exact symmF_set _ _ i t h.2 h.1 hw
    · exact hw
  · intro i t ht
    rcases hi : w.itemTag i with _ | t0
    · simp only [Attach.attach_tag, hi]
      exact symmF_set _ _ i t hi ht hw
    · simp only [Attach.attach_tag, hi]
      exact hw
  · intro i t hres
    rcases hi : w.itemTag i with _ | t0
    · simp [Attach.attach_tag, hi] at hres
    · simp [Attach.attach_tag, hi]
  · intro t i hcond
    unfold Attach.attach_to_item
    rw [if_neg hcond]
  · intro i
    rcases hi : w.itemTag i with _ | t0
    · simp only [Attach.remove_tag, hi]
      exact hw
    · simp only [Attach.remove_tag, hi]
      exact symmF_clear _ _ i t0 hi ((hw i t0).mp hi) hw
  · intro t
    rcases ht : w.tagItem t with _ | i0
    · simp only [Attach.detach_from_item, ht]
      exact hw
    · simp only [Attach.detach_from_item, ht]
      exact symmF_clear _ _ i0 t ((hw i0 t).mpr ht) ht hw

/-- Witness for `attachment_symmetry_preserved` on a concrete free world. -/
theorem attachment_symmetry_preserved_witness :
    Attach.Symm Attach.wFree ∧
    Attach.Symm (Attach.attach_tag Attach.wFree 0 0).2 ∧
    Attach.Symm (Attach.attach_to_item Attach.wFree 0 0) :=
  ⟨by decide,
    (attachment_symmetry_preserved Attach.wFree (by decide)).2.1 0 0 (by decide),
    (attachment_symmetry_preserved Attach.wFree (by decide)).1 0 0⟩

/-- Claim C1: evaluation of `Bag.delete_self` on a bag holding one tagged item
with an attached scanner.  The item (1) and the bag (0) are unregistered and
the scanner (3) survives detached and visible, but the tag (2) **remains
registered** — the source detaches the tag first, so the subsequent
`if item.attached_tag in ClickableObject.instances` test sees `None` and never
unregisters it — and the allocator pools are untouched: `delete_self` releases
no identifier at all, contradicting the claim (and the source's own comment
"Delete all items and their tags"). -/
theorem delete_self_misses_tag_and_releases_nothing :
    (Cascade.delete_self 0 Cascade.wCascade).instances = [2, 3] ∧
    2 ∈ (Cascade.delete_self 0 Cascade.wCascade).instances ∧
    (Cascade.delete_self 0 Cascade.wCascade).bagItems = [] ∧
    (Cascade.delete_self 0 Cascade.wCascade).bagScanner = none ∧
    (Cascade.delete_self 0 Cascade.wCascade).scannerBag = none ∧
    (Cascade.delete_self 0 Cascade.wCascade).scannerHidden = false ∧
    (Cascade.delete_self 0 Cascade.wCascade).pools = Cascade.wCascade.pools ∧
    ((Cascade.delete_self 0 Cascade.wCascade).pools "Tag").free = ∅ := by
  refine ⟨by decide, by decide, by decide, by decide, by decide, by decide,
    rfl, by decide⟩

/-- Claim C10: `Item.show` on a hidden item with an attached tag and no
coordinates unhides the item and then raises `TypeError` (evaluating
`cx + 50` with `cx = None`); with both coordinates supplied, or on an item
without a tag, the call returns normally. -/
theorem item_show_raises (it : ShowOp.ItemS) (t : ShowOp.TagS)
    (hh : it.hidden = true) (ht : it.tag = some t) :
    ShowOp.itemShow it none none = .typeError { it with hidden := false } ∧
    (∀ x y : ℚ, ShowOp.itemShow it (some x) (some y)
      = .ok { hidden := false, tag := some (ShowOp.tagShow t) }) ∧
    (∀ it2 : ShowOp.ItemS, it2.tag = none →
      ShowOp.itemShow it2 none none = .ok { it2 with hidden := false } ∨
      ShowOp.itemShow it2 none none = .ok it2) := by
  refine ⟨?_, ?_, ?_⟩
  · simp [ShowOp.itemShow, hh, ht]
  · intro x y
    simp [ShowOp.itemShow, hh, ht]
  · intro it2 ht2
    rcases hh2 : it2.hidden with _ | _
    · right
      simp [ShowOp.itemShow, hh2]
    · left
      simp [ShowOp.itemShow, hh2, ht2]

/-- Witness for `item_show_raises` on a concrete hidden tagged item. -/
theorem item_show_raises_witness :
    ShowOp.itemShow ⟨true, some ⟨true⟩⟩ none none
      = .typeError ⟨false, some ⟨true⟩⟩ :=
  (item_show_raises ⟨true, some ⟨true⟩⟩ ⟨true⟩ rfl rfl).1

/-- The scanning loop returns `none` exactly when it started with no current
best and no scanned candidate beats the current bound. -/
theorem nearestScanAux_none_iff (c : Nearest.Q2) (p : Nearest.Ent → Bool)
    (l : List Nearest.Ent) :
    ∀ (best : Option Nearest.Ent) (bd : ℚ),
      (Nearest.nearestScanAux c p l best bd = none ↔
        best = none ∧ ∀ o ∈ l, ∀ cc, p o = true → o.center = some cc →
          bd ≤ Nearest.distSq c cc) := by
  induction l with
  | nil =>
    intro best bd
    simp [Nearest.nearestScanAux]
  | cons a rest ih =>
    intro best bd
    by_cases hp : p a = true
    · rcases hc : a.center with _ | ca
      · rw [show Nearest.nearestScanAux c p (a :: rest) best bd
            = Nearest.nearestScanAux c p rest best bd by
          simp [Nearest.nearestScanAux, hp, hc]]
        rw [ih]
        constructor
        · rintro ⟨h1, h2⟩
          refine ⟨h1, ?_⟩
          intro o ho cc hpo hco
          rcases List.mem_cons.mp ho with rfl | ho'
          · rw [hc] at hco
            exact absurd hco (by simp)
          · exact h2 o ho' cc hpo hco
        · rintro ⟨h1, h2⟩
          exact ⟨h1, fun o ho cc hpo hco =>
            h2 o (List.mem_cons_of_mem a ho) cc hpo hco⟩
      · by_cases hd : Nearest.distSq c ca < bd
        · rw [show Nearest.nearestScanAux c p (a :: rest) best bd
              = Nearest.nearestScanAux c p rest (some a) (Nearest.distSq c ca) by
            simp [Nearest.nearestScanAux, hp, hc, hd]]
          rw [ih]
          constructor
          · rintro ⟨h1, -⟩
            exact absurd h1 (by simp)
          · rintro ⟨-, h2⟩
            exact absurd (h2 a (List.mem_cons_self a rest) ca hp hc)
              (not_le.mpr hd)
        · rw [show Nearest.nearestScanAux c p (a :: rest) best bd
              = Nearest.nearestScanAux c p rest best bd by
            simp [Nearest.nearestScanAux, hp, hc, hd]]
          rw [ih]
          constructor
          · rintro ⟨h1, h2⟩
            refine ⟨h1, ?_⟩
            intro o ho cc hpo hco
            rcases List.mem_cons.mp ho with rfl | ho'
            · have hcc : cc = ca := by
                rw [hc] at hco
                exact (Option.some_inj.mp hco).symm
              rw [hcc]
              exact not_lt.mp hd
            · exact h2 o ho' cc hpo hco
          · rintro ⟨h1, h2⟩
            exact ⟨h1, fun o ho cc hpo hco =>
              h2 o (List.mem_cons_of_mem a ho) cc hpo hco⟩
    · rw [show Nearest.nearestScanAux c p (a :: rest) best bd
          = Nearest.nearestScanAux c p rest best bd by
        simp [Nearest.nearestScanAux, hp]]
      rw [ih]
      constructor
      · rintro ⟨h1, h2⟩
        refine ⟨h1, ?_⟩
        intro o ho cc hpo hco
        rcases List.mem_cons.mp ho with rfl | ho'
        · exact absurd hpo hp
        · exact h2 o ho' cc hpo hco
      · rintro ⟨h1, h2⟩
        exact ⟨h1, fun o ho cc hpo hco =>
          h2 o (List.mem_cons_of_mem a ho) cc hpo hco⟩

/-- If the scanning loop answers `some o`, then either `o` occurs in the
scanned list as a candidate strictly under the current bound, strictly closer
than every earlier candidate and at least as close as every later one, or `o`
was the incoming best and no scanned candidate beat the bound. -/
theorem nearestScanAux_some_spec (c : Nearest.Q2) (p : Nearest.Ent → Bool)
    (l : List Nearest.Ent) :
    ∀ (best : Option Nearest.Ent) (bd : ℚ) (o : Nearest.Ent),
      Nearest.nearestScanAux c p l best bd = some o →
      (∃ cc l₁ l₂, p o = true ∧ o.center = some cc ∧
        Nearest.distSq c cc < bd ∧ l = l₁ ++ o :: l₂ ∧
        (∀ o' ∈ l₁, ∀ cc', p o' = true → o'.center = some cc' →
          Nearest.distSq c cc < Nearest.distSq c cc') ∧
        (∀ o' ∈ l₂, ∀ cc', p o' = true → o'.center = some cc' →
          Nearest.distSq c cc ≤ Nearest.distSq c cc')) ∨
      (best = some o ∧ ∀ o' ∈ l, ∀ cc', p o' = true → o'.center = some cc' →
        bd ≤ Nearest.distSq c cc') := by
  induction l with
  | nil =>
    intro best bd o h
    right
    refine ⟨h, ?_⟩
    intro o' ho'
    exact absurd ho' (List.not_mem_nil o')
  | cons a rest ih =>
    intro best bd o h
    by_cases hp : p a = true
    · rcases hc : a.center with _ | ca
      · rw [show Nearest.nearestScanAux c p (a :: rest) best bd
            = Nearest.nearestScanAux c p rest best bd by
          simp [Nearest.nearestScanAux, hp, hc]] at h
        rcases ih best bd o h with
          ⟨cc, l₁, l₂, h1, h2, h3, h4, h5, h6⟩ | ⟨h1, h2⟩
        · left
          refine ⟨cc, a :: l₁, l₂, h1, h2, h3, by rw [h4]; rfl, ?_, h6⟩
          intro o' ho' cc' hpo hco
          rcases List.mem_cons.mp ho' with rfl | ho''
          · rw [hc] at hco
            exact absurd hco (by simp)
          · exact h5 o' ho'' cc' hpo hco
        · right
          refine ⟨h1, ?_⟩
          intro o' ho' cc' hpo hco
          rcases List.mem_cons.mp ho' with rfl | ho''
          · rw [hc] at hco
            exact absurd hco (by simp)
          · exact h2 o' ho'' cc' hpo hco
      · by_cases hd : Nearest.distSq c ca < bd
        · rw [show Nearest.nearestScanAux c p (a :: rest) best bd
              = Nearest.nearestScanAux c p rest (some a) (Nearest.distSq c ca) by
            simp [Nearest.nearestScanAux, hp, hc, hd]] at h
          rcases ih (some a) (Nearest.distSq c ca) o h with
            ⟨cc, l₁, l₂, h1, h2, h3, h4, h5, h6⟩ | ⟨h1, h2⟩
          · left
            refine ⟨cc, a :: l₁, l₂, h1, h2, lt_trans h3 hd, by rw [h4]; rfl,
              ?_, h6⟩
            intro o' ho' cc' hpo hco
            rcases List.mem_cons.mp ho' with rfl | ho''
            · have hcc : cc' = ca := by
                rw [hc] at hco
                exact (Option.some_inj.mp hco).symm
              rw [hcc]
              exact h3
            · exact h5 o' ho'' cc' hpo hco
          · have hoa : o = a := (Option.some_inj.mp h1).symm
            subst hoa
            left
            refine ⟨ca, [], rest, hp, hc, hd, rfl, ?_, ?_⟩
            · intro o' ho'
              exact absurd ho' (List.not_mem_nil o')
            · intro o' ho' cc' hpo hco
              exact h2 o' ho' cc' hpo hco
        · rw [show Nearest.nearestScanAux c p (a :: rest) best bd
              = Nearest.nearestScanAux c p rest best bd by
            simp [Nearest.nearestScanAux, hp, hc, hd]] at h
          rcases ih best bd o h with
            ⟨cc, l₁, l₂, h1, h2, h3, h4, h5, h6⟩ | ⟨h1, h2⟩
          · left
            refine ⟨cc, a :: l₁, l₂, h1, h2, h3, by rw [h4]; rfl, ?_, h6⟩
            intro o' ho' cc' hpo hco
            rcases List.mem_cons.mp ho' with rfl | ho''
            · have hcc : cc' = ca := by
                rw [hc] at hco
                exact (Option.some_inj.mp hco).symm
              rw [hcc]
              exact lt_of_lt_of_le h3 (not_lt.mp hd)
            · exact h5 o' ho'' cc' hpo hco
          · right
            refine ⟨h1, ?_⟩
            intro o' ho' cc' hpo hco
            rcases List.mem_cons.mp ho' with rfl | ho''
            · have hcc : cc' = ca := by
                rw [hc] at hco
                exact (Option.some_inj.mp hco).symm
              rw [hcc]
              exact not_lt.mp hd
            · exact h2 o' ho'' cc' hpo hco
    · rw [show Nearest.nearestScanAux c p (a :: rest) best bd
          = Nearest.nearestScanAux c p rest best bd by
        simp [Nearest.nearestScanAux, hp]] at h
      rcases ih best bd o h with
        ⟨cc, l₁, l₂, h1, h2, h3, h4, h5, h6⟩ | ⟨h1, h2⟩
      · left
        refine ⟨cc, a :: l₁, l₂, h1, h2, h3, by rw [h4]; rfl, ?_, h6⟩
        intro o' ho' cc' hpo hco
        rcases List.mem_cons.mp ho' with rfl | ho''
        · exact absurd hpo hp
        · exact h5 o' ho'' cc' hpo hco
      · right
        refine ⟨h1, ?_⟩
        intro o' ho' cc' hpo hco
        rcases List.mem_cons.mp ho' with rfl | ho''
        · exact absurd hpo hp
        · exact h2 o' ho'' cc' hpo hco

/-- `isCandWithin` answers `false` exactly when the entity fails the
predicate, has no centre, or lies at squared distance at least the
threshold. -/
theorem isCandWithin_eq_false_iff (c : Nearest.Q2) (p : Nearest.Ent → Bool)
    (thrSq : ℚ) (o : Nearest.Ent) :
    Nearest.isCandWithin c p thrSq o = false ↔
      (∀ cc, p o = true → o.center = some cc →
        thrSq ≤ Nearest.distSq c cc) := by
  rcases hpv : p o with _ | _
  · simp [Nearest.isCandWithin, hpv]
  · rcases hc : o.center with _ | cc0
    · simp [Nearest.isCandWithin, hpv, hc]
    · simp [Nearest.isCandWithin, hpv, hc, not_lt]

/-- Each `nearestScan` run satisfies `NearestSpec`. -/
theorem nearestScan_spec (c : Nearest.Q2) (p : Nearest.Ent → Bool)
    (thrSq : ℚ) (objs : List Nearest.Ent) :
    Nearest.NearestSpec c p thrSq objs (Nearest.nearestScan c p thrSq objs) := by
  constructor
  · constructor
    · intro h o ho
      rw [isCandWithin_eq_false_iff]
      intro cc hpo hco
      exact ((nearestScanAux_none_iff c p objs none thrSq).mp h).2 o ho cc hpo hco
    · intro h
      exact (nearestScanAux_none_iff c p objs none thrSq).mpr
        ⟨rfl, fun o ho cc hpo hco =>
          (isCandWithin_eq_false_iff c p thrSq o).mp (h o ho) cc hpo hco⟩
  · intro o h
    rcases nearestScanAux_some_spec c p objs none thrSq o h with
      ⟨cc, l₁, l₂, h1, h2, h3, h4, h5, h6⟩ | ⟨h1, -⟩
    · exact ⟨h1, cc, h2, h3, l₁, l₂, h4, h5, h6⟩
    · exact absurd h1 (by simp)

/-- Claim C9: each of the three nearest queries — nearest open Bag to an Item,
nearest unattached Item to a Tag, nearest Bag to a Scanner — satisfies
`NearestSpec`: it returns the predicate-satisfying entity of minimum
(squared, hence Euclidean) distance strictly below its threshold, ties broken
in favour of the first-registered entity, and `none` when no candidate is
strictly within the threshold; a missing own-centre also yields `none`.  The
queries are plain functions of the state, mutating nothing. -/
theorem nearest_queries_correct (c : Nearest.Q2) (objs : List Nearest.Ent) :
    Nearest.NearestSpec c Nearest.isOpenBag 6400 objs
      (Nearest.find_nearest_bag (some c) objs) ∧
    Nearest.NearestSpec c Nearest.isUntaggedItem 3600 objs
      (Nearest.find_nearest_item (some c) objs) ∧
    Nearest.NearestSpec c Nearest.isAnyBag 3600 objs
      (Nearest.scanner_find_nearest_bag (some c) objs) ∧
    Nearest.find_nearest_bag none objs = none ∧
    Nearest.find_nearest_item none objs = none ∧
    Nearest.scanner_find_nearest_bag none objs = none :=
  ⟨nearestScan_spec c Nearest.isOpenBag 6400 objs,
    nearestScan_spec c Nearest.isUntaggedItem 3600 objs,
    nearestScan_spec c Nearest.isAnyBag 3600 objs, rfl, rfl, rfl⟩

/-- Witness for `nearest_queries_correct`: a closed bag 5 pixels away is not a
candidate for `Item.find_nearest_bag`, so the query answers `none`. -/
theorem nearest_queries_witness :
    Nearest.find_nearest_bag (some (0, 0)) [⟨.bag false, some (3, 4)⟩] = none :=
  ((nearest_queries_correct (0, 0) [⟨.bag false, some (3, 4)⟩]).1.1).mpr
    (by decide)
